import Mathlib

set_option linter.unusedVariables false

/-!
Verification of the chrono-fling simulation core (src/js/game.js).

The JavaScript source is shallowly embedded below.  JavaScript numbers are
modelled as exact rationals; the mutating Victor vector methods become pure
functions whose net effect matches the source; the per-frame methods of
PhysicsObject, Player, Camera, Wave and the object manager become state
transformers.  Math.random is modelled by an oracle stream of draws in [0,1).
-/

namespace ChronoFling

/-- A 2D vector with rational components, modelling a Victor value. -/
structure Vec where
  x : ℚ
  y : ℚ
deriving DecidableEq

/-- Victor add. -/
def Vec.add (a b : Vec) : Vec := ⟨a.x + b.x, a.y + b.y⟩

/-- Victor subtract. -/
def Vec.sub (a b : Vec) : Vec := ⟨a.x - b.x, a.y - b.y⟩

/-- Victor multiplyScalar. -/
def Vec.smul (a : Vec) (s : ℚ) : Vec := ⟨a.x * s, a.y * s⟩

/-- Victor lengthSq. -/
def Vec.lengthSq (a : Vec) : ℚ := a.x * a.x + a.y * a.y

/-- Victor distanceSq. -/
def Vec.distanceSq (a b : Vec) : ℚ :=
  (a.x - b.x) * (a.x - b.x) + (a.y - b.y) * (a.y - b.y)

/-- The `lerp` utility: `min + (max - min) * progress`. -/
def lerp (lo hi progress : ℚ) : ℚ := lo + (hi - lo) * progress

/-- The `lerp2D` utility, componentwise lerp via Victor operations. -/
def lerp2D (lo hi : Vec) (progress : ℚ) : Vec :=
  lo.add ((hi.sub lo).smul progress)

/-- A PIXI.Rectangle value: x, y, width, height. -/
structure Rect where
  x : ℚ
  y : ℚ
  width : ℚ
  height : ℚ
deriving DecidableEq

/-- PIXI Rectangle.left. -/
def Rect.left (r : Rect) : ℚ := r.x

/-- PIXI Rectangle.right = x + width. -/
def Rect.right (r : Rect) : ℚ := r.x + r.width

/-- PIXI Rectangle.top. -/
def Rect.top (r : Rect) : ℚ := r.y

/-- PIXI Rectangle.bottom = y + height. -/
def Rect.bottom (r : Rect) : ℚ := r.y + r.height

/-- PIXI Rectangle.contains: false for non-positive dimensions, otherwise a
half-open containment test. -/
def Rect.containsPt (r : Rect) (px py : ℚ) : Prop :=
  0 < r.width ∧ 0 < r.height ∧
  r.x ≤ px ∧ px < r.x + r.width ∧ r.y ≤ py ∧ py < r.y + r.height

instance (r : Rect) (px py : ℚ) : Decidable (r.containsPt px py) := by
  unfold Rect.containsPt; infer_instance

/-- The `isColliding` utility: circle overlap via squared distance,
`distanceSq < (r1 + r2)^2` with a strict inequality. -/
def isColliding (p1 : Vec) (r1 : ℚ) (p2 : Vec) (r2 : ℚ) : Prop :=
  p1.distanceSq p2 < (r1 + r2) * (r1 + r2)

instance (p1 : Vec) (r1 : ℚ) (p2 : Vec) (r2 : ℚ) :
    Decidable (isColliding p1 r1 p2 r2) := by
  unfold isColliding; infer_instance

/-- The `isCircleCollidingWithPoint` utility. -/
def isCircleCollidingWithPoint (pos : Vec) (radius : ℚ) (target : Vec) : Prop :=
  pos.distanceSq target < radius * radius

/-- The FRICTION constant. -/
def FRICTION : ℚ := 9/10

/-- The GRAVITY constant, Victor(0, 100000). -/
def GRAVITY : Vec := ⟨0, 100000⟩

/-- The physics fields of a PhysicsObject: vectorPosition, velocity and
momentOfAcceleration. -/
structure PhysState where
  pos : Vec
  vel : Vec
  acc : Vec
deriving DecidableEq

/-- PhysicsObject.update: velocity += acc * timeSpeed; position += velocity *
timeSpeed; friction subtracts velocity * (FRICTION * timeSpeed) from the
already-updated velocity; the pending acceleration is reset to zero. -/
def physicsUpdate (s : PhysState) (timeSpeed : ℚ) : PhysState :=
  let vel1 := s.vel.add (s.acc.smul timeSpeed)
  let pos1 := s.pos.add (vel1.smul timeSpeed)
  let vel2 := vel1.sub (vel1.smul (FRICTION * timeSpeed))
  { pos := pos1, vel := vel2, acc := ⟨0, 0⟩ }

/-- The PLAYER_STATE enum. -/
inductive PState
  | Dead
  | Idle
  | Aiming
  | Tutorial
deriving DecidableEq

/-- The FLING_FORCE_MIN constant. -/
def FLING_FORCE_MIN : ℚ := 3500

/-- The STARTING_FLINGS constant. -/
def STARTING_FLINGS : ℤ := 5

/-- The ORB_BOOST_MULTIPLIER constant. -/
def ORB_BOOST_MULTIPLIER : ℚ := 12/10

/-- The Player fields that carry game state.  Visual-only fields (rotation,
squash scale, indicator tint and alpha) are omitted; `lastIndicatorPos` keeps
the container-space position of the last aiming ball, which whenAim feeds back
into the camera target.  For the last ball the lerp fraction is
`(i+1)/(AIMING_BALLS_AMOUNT+1) = 1`, so its position is `flingForce * 0.7`. -/
structure PlayerS where
  pos : Vec
  vel : Vec
  acc : Vec
  playerState : PState
  flings : ℤ
  flingForce : Vec
  colliderRadius : ℚ
  aimingVisible : Bool
  lastIndicatorPos : Vec
deriving DecidableEq

/-- The physics-manager globals currentGameSpeed and targetGameSpeed. -/
structure TimeS where
  currentGameSpeed : ℚ
  targetGameSpeed : ℚ
deriving DecidableEq

/-- Player.setFlingAmount: clamp negative amounts to 0 and store. -/
def setFlingAmount (amount : ℤ) : ℤ := if amount < 0 then 0 else amount

/-- Player.exitAiming: hide the indicator, snap currentGameSpeed to 0.5 and
target 1. -/
def exitAiming (p : PlayerS) (t : TimeS) : PlayerS × TimeS :=
  ({ p with aimingVisible := false },
   { currentGameSpeed := 1/2, targetGameSpeed := 1 })

/-- Player.onAim: ignored when Dead; otherwise request slow motion
(targetGameSpeed := 0.02), show the indicator, and enter Aiming. -/
def onAim (p : PlayerS) (t : TimeS) : PlayerS × TimeS :=
  if p.playerState = PState.Dead then (p, t)
  else ({ p with aimingVisible := true, playerState := PState.Aiming },
        { t with targetGameSpeed := 2/100 })

/-- Player.onFling: a no-op unless Aiming.  Otherwise exit aiming, enter Idle,
and cancel when `flingForce.lengthSq < FLING_FORCE_MIN` or no flings are left;
a valid fling spends one charge and sets velocity to `flingForce * 5`. -/
def onFling (p : PlayerS) (t : TimeS) : PlayerS × TimeS :=
  if p.playerState ≠ PState.Aiming then (p, t) else
  let pt1 := exitAiming p t
  let p1 := { pt1.1 with playerState := PState.Idle }
  if p.flingForce.lengthSq < FLING_FORCE_MIN ∨ p.flings = 0 then (p1, pt1.2)
  else ({ p1 with
            flings := setFlingAmount (p1.flings - 1)
            vel := p.flingForce.smul 5 }, pt1.2)

/-- Player.whenTutorial: force both game speeds to 0 every tick. -/
def whenTutorial (t : TimeS) : TimeS :=
  { currentGameSpeed := 0, targetGameSpeed := 0 }

/-- The WAVE_SPEED constant. -/
def WAVE_SPEED : ℚ := 200

/-- Wave state: the top edge y and the collider rectangle's y.  The collider
is `Rect(0, boundsY, APP_SIZE.x, APP_SIZE.y * 2)`; its x stays 0 and its size
is fixed, so only the two y values vary. -/
structure WaveS where
  y : ℚ
  boundsY : ℚ
deriving DecidableEq

/-- Width of the wave collider, APP_SIZE.x. -/
def WAVE_BOUNDS_WIDTH : ℚ := 500

/-- Height of the wave collider, APP_SIZE.y * 2. -/
def WAVE_BOUNDS_HEIGHT : ℚ := 1500

/-- Wave.update: move up by WAVE_SPEED * timeSpeed; while the player is not
Aiming clamp y to the camera bottom plus 100 via Math.min; then copy y into
the collider. -/
def waveUpdate (w : WaveS) (timeSpeed : ℚ) (pstate : PState) (camBottom : ℚ) :
    WaveS :=
  let y1 := w.y - WAVE_SPEED * timeSpeed
  let y2 := if pstate ≠ PState.Aiming then min y1 (camBottom + 100) else y1
  { y := y2, boundsY := y2 }

/-- Wave.isColliding: PIXI Rectangle.contains on the wave collider. -/
def waveContains (w : WaveS) (p : Vec) : Prop :=
  (Rect.mk 0 w.boundsY WAVE_BOUNDS_WIDTH WAVE_BOUNDS_HEIGHT).containsPt p.x p.y

instance (w : WaveS) (p : Vec) : Decidable (waveContains w p) := by
  unfold waveContains; infer_instance

/-- recordDeathHeight: store the last death height and, exactly when it
exceeds the stored best, save a new best.  Returns (lastDeathHeight, new
highestDeathHeight, whether saveHighestsDeath was called). -/
def recordDeathHeight (newHeight highest : ℤ) : ℤ × ℤ × Bool :=
  if newHeight > highest then (newHeight, newHeight, true)
  else (newHeight, highest, false)

/-- The outcome of Player.onDeath. -/
structure DeathResult where
  player : PlayerS
  time : TimeS
  lastDeathHeight : ℤ
  highestDeathHeight : ℤ
  saveIssued : Bool

/-- Player.onDeath: enter Dead, run exitAiming, zero horizontal velocity and
record `ceil(y * -0.1) + 100` as the death height. -/
def onDeath (p : PlayerS) (t : TimeS) (highest : ℤ) : DeathResult :=
  let p1 := { p with playerState := PState.Dead }
  let pt2 := exitAiming p1 t
  let p3 := { pt2.1 with vel := ⟨0, pt2.1.vel.y⟩ }
  let h := ⌈p.pos.y * (-1/10 : ℚ)⌉ + 100
  let r0 := recordDeathHeight h highest
  ⟨p3, pt2.2, r0.1, r0.2.1, r0.2.2⟩

/-- The four operations of the source that write Player.flings, all of which
go through setFlingAmount: the orb reaction, the spike reaction, a valid
fling, and Player.reset. -/
inductive ChargeEvent
  | orbHit
  | spikeHit
  | flingSpend
  | resetCharge
deriving DecidableEq

/-- The effect of each charge-mutating operation on the fling count, exactly
as the corresponding call site passes it to setFlingAmount. -/
def chargeStep (f : ℤ) : ChargeEvent → ℤ
  | ChargeEvent.orbHit => setFlingAmount (f + 1)
  | ChargeEvent.spikeHit => setFlingAmount (f - 1)
  | ChargeEvent.flingSpend => setFlingAmount (f - 1)
  | ChargeEvent.resetCharge => setFlingAmount STARTING_FLINGS

lemma setFlingAmount_nonneg (a : ℤ) : 0 ≤ setFlingAmount a := by
  unfold setFlingAmount; split <;> omega

lemma chargeStep_nonneg (f : ℤ) (e : ChargeEvent) : 0 ≤ chargeStep f e := by
  cases e <;> simp [chargeStep, setFlingAmount_nonneg]

lemma chargeFold_nonneg (evs : List ChargeEvent) (s : ℤ) (h : 0 ≤ s) :
    0 ≤ evs.foldl chargeStep s := by
  induction evs generalizing s with
  | nil => exact h
  | cons e rest ih => exact ih (chargeStep s e) (chargeStep_nonneg s e)

/-- The APP_SIZE constant, Victor(500, 750). -/
def APP_SIZE : Vec := ⟨500, 750⟩

/-- A PIXI.Matrix: components a b c d and translation tx ty, where a point
maps to `(a*x + c*y + tx, b*x + d*y + ty)`. -/
structure Mat where
  a : ℚ
  b : ℚ
  c : ℚ
  d : ℚ
  tx : ℚ
  ty : ℚ
deriving DecidableEq

/-- PIXI Matrix.identity. -/
def Mat.identityM : Mat := ⟨1, 0, 0, 1, 0, 0⟩

/-- PIXI Matrix.translate: tx += x; ty += y. -/
def Mat.translateM (m : Mat) (dx dy : ℚ) : Mat :=
  { m with tx := m.tx + dx, ty := m.ty + dy }

/-- PIXI Matrix.scale: a, c, tx scale by x; b, d, ty scale by y. -/
def Mat.scaleM (m : Mat) (sx sy : ℚ) : Mat :=
  ⟨m.a * sx, m.b * sy, m.c * sx, m.d * sy, m.tx * sx, m.ty * sy⟩

/-- PIXI Matrix.applyInverse.  Rational division is total with `q / 0 = 0`;
every theorem below that inverts a camera matrix assumes a positive zoom. -/
def Mat.applyInverse (m : Mat) (p : Vec) : Vec :=
  let idm := 1 / (m.a * m.d + m.c * (-m.b))
  ⟨m.d * idm * p.x + (-m.c) * idm * p.y + (m.ty * m.c - m.tx * m.d) * idm,
   m.a * idm * p.y + (-m.b) * idm * p.x + (-m.ty * m.a + m.tx * m.b) * idm⟩

/-- Camera state: position, zoom, the cached matrix, the cached world-space
bounding rectangle and next camera bound, and the horizontal xBounds pair. -/
structure CameraS where
  position : Vec
  zoom : ℚ
  matrix : Mat
  boundingRectangle : Rect
  nextCameraBound : Rect
  xBounds : Vec
deriving DecidableEq

/-- Camera.canvasToWorld: inverse-transform a canvas point by the cached
matrix. -/
def canvasToWorld (cam : CameraS) (canvasPosition : Vec) : Vec :=
  cam.matrix.applyInverse canvasPosition

/-- Camera.computeBoundingRectangle: world-space corners of the canvas, plus
the nextCameraBound shifted up by one bounds height. -/
def computeBoundingRectangle (cam : CameraS) : CameraS :=
  let topLeft := canvasToWorld cam ⟨0, 0⟩
  let bottomRight := canvasToWorld cam ⟨APP_SIZE.x, APP_SIZE.y⟩
  let br := Rect.mk topLeft.x topLeft.y (bottomRight.x - topLeft.x)
    (bottomRight.y - topLeft.y)
  let nb := { br with y := br.y - br.height }
  { cam with boundingRectangle := br, nextCameraBound := nb }

/-- Camera.computeMatrix: identity, translate by -position, scale by zoom,
translate by half the app size; then recompute the bounding rectangle. -/
def computeMatrix (cam : CameraS) : CameraS :=
  let m := ((Mat.identityM.translateM (-cam.position.x) (-cam.position.y)).scaleM
      cam.zoom cam.zoom).translateM (APP_SIZE.x * (1/2)) (APP_SIZE.y * (1/2))
  computeBoundingRectangle { cam with matrix := m }

/-- Camera.update: recompute the matrix, then clamp the horizontal position
when the bounding rectangle leaves xBounds, checking the left edge first, and
recompute the matrix once more after a clamp. -/
def cameraUpdate (cam : CameraS) : CameraS :=
  let cam1 := computeMatrix cam
  let overlapLeft := cam1.boundingRectangle.left - cam1.xBounds.x
  let overlapRight := cam1.boundingRectangle.right - cam1.xBounds.y
  if overlapLeft < 0 then
    computeMatrix { cam1 with
      position := ⟨cam1.position.x - overlapLeft, cam1.position.y⟩ }
  else if overlapRight > 0 then
    computeMatrix { cam1 with
      position := ⟨cam1.position.x - overlapRight, cam1.position.y⟩ }
  else cam1

/-- Camera.easeTo: move position and zoom a fixed fraction toward a target. -/
def easeTo (cam : CameraS) (targetPosition : Vec) (targetZoom easingFactor : ℚ) :
    CameraS :=
  { cam with
      position := lerp2D cam.position targetPosition easingFactor
      zoom := lerp cam.zoom targetZoom easingFactor }

lemma computeMatrix_boundingRectangle (cam : CameraS) (hz : cam.zoom ≠ 0) :
    (computeMatrix cam).boundingRectangle =
      ⟨cam.position.x - 250 / cam.zoom, cam.position.y - 375 / cam.zoom,
       500 / cam.zoom, 750 / cam.zoom⟩ := by
  unfold computeMatrix computeBoundingRectangle canvasToWorld Mat.applyInverse
    Mat.identityM Mat.translateM Mat.scaleM APP_SIZE
  dsimp only
  have h4 : cam.zoom * cam.zoom ≠ 0 := mul_ne_zero hz hz
  simp only [Rect.mk.injEq]
  refine ⟨?_, ?_, ?_, ?_⟩ <;> field_simp <;> ring

lemma computeMatrix_position (cam : CameraS) :
    (computeMatrix cam).position = cam.position := rfl

lemma computeMatrix_zoom (cam : CameraS) :
    (computeMatrix cam).zoom = cam.zoom := rfl

lemma computeMatrix_xBounds (cam : CameraS) :
    (computeMatrix cam).xBounds = cam.xBounds := rfl

/-- Claim C3: after Wave.update in a tick where the player is not Aiming, the
wave top edge satisfies `y ≤ camBottom + 100` and the collider y mirrors it. -/
theorem claim_C3 (w : WaveS) (ts : ℚ) (st : PState) (camBottom : ℚ)
    (h : st ≠ PState.Aiming) :
    (waveUpdate w ts st camBottom).y ≤ camBottom + 100 ∧
    (waveUpdate w ts st camBottom).boundsY = (waveUpdate w ts st camBottom).y := by
  unfold waveUpdate
  refine ⟨?_, rfl⟩
  simp only [h, if_pos, ne_eq, not_false_iff, if_true]
  exact min_le_right _ _

/-- Witness for claim C3 at a concrete tick. -/
theorem claim_C3_witness :
    (waveUpdate ⟨800, 800⟩ 1 PState.Idle 500).y ≤ 500 + 100 ∧
    (waveUpdate ⟨800, 800⟩ 1 PState.Idle 500).boundsY =
      (waveUpdate ⟨800, 800⟩ 1 PState.Idle 500).y :=
  claim_C3 ⟨800, 800⟩ 1 PState.Idle 500 (by decide)

/-- Claim C5: one PhysicsObject.update tick performs, in order, the velocity
update from the pending acceleration, the position update with the updated
velocity, the friction subtraction on the updated velocity, and the reset of
the pending acceleration; iterating over a timeSpeed list steps one tick at a
time, so the trajectory is a pure function of the initial state and the
timeSpeed sequence. -/
theorem claim_C5 (s : PhysState) (ts : ℚ) :
    physicsUpdate s ts =
      { pos := s.pos.add ((s.vel.add (s.acc.smul ts)).smul ts),
        vel := (s.vel.add (s.acc.smul ts)).sub
          ((s.vel.add (s.acc.smul ts)).smul (FRICTION * ts)),
        acc := ⟨0, 0⟩ } ∧
    ∀ (s0 : PhysState) (l : List ℚ) (ts0 : ℚ),
      (ts0 :: l).foldl physicsUpdate s0 = l.foldl physicsUpdate (physicsUpdate s0 ts0) :=
  ⟨rfl, fun _ _ _ => rfl⟩

/-- Claim C7: every operation that writes the fling count goes through the
clamp in setFlingAmount, so any event sequence starting from a nonnegative
count, and in particular any run of spike reactions, keeps it nonnegative. -/
theorem claim_C7 (s : ℤ) (evs : List ChargeEvent) (h : 0 ≤ s) :
    0 ≤ evs.foldl chargeStep s ∧
    ∀ n : ℕ, 0 ≤ (List.replicate n ChargeEvent.spikeHit).foldl chargeStep s :=
  ⟨chargeFold_nonneg evs s h, fun n => chargeFold_nonneg _ s h⟩

/-- Witness for claim C7: two spike hits from a count of 1 stay clamped. -/
theorem claim_C7_witness :
    0 ≤ [ChargeEvent.spikeHit, ChargeEvent.spikeHit].foldl chargeStep 1 ∧
    ∀ n : ℕ, 0 ≤ (List.replicate n ChargeEvent.spikeHit).foldl chargeStep 1 :=
  claim_C7 1 [ChargeEvent.spikeHit, ChargeEvent.spikeHit] (by decide)

/-- Claim C8: onDeath sets the state to Dead, zeroes the horizontal velocity,
records `ceil(y * -0.1) + 100` as the death height, and issues a best-height
save exactly when that height exceeds the stored best. -/
theorem claim_C8 (p : PlayerS) (t : TimeS) (highest : ℤ) :
    (onDeath p t highest).player.playerState = PState.Dead ∧
    (onDeath p t highest).player.vel = ⟨0, p.vel.y⟩ ∧
    (onDeath p t highest).lastDeathHeight = ⌈p.pos.y * (-1/10 : ℚ)⌉ + 100 ∧
    ((onDeath p t highest).saveIssued = true ↔
      ⌈p.pos.y * (-1/10 : ℚ)⌉ + 100 > highest) := by
  unfold onDeath recordDeathHeight exitAiming
  refine ⟨rfl, rfl, ?_, ?_⟩
  · dsimp only; split <;> rfl
  · dsimp only; split <;> simp_all

/-- Closed form of Camera.update: the bounding rectangle keeps the view size
and is clamped on x, checking the left edge first. -/
lemma cameraUpdate_spec (cam : CameraS) (hz : cam.zoom ≠ 0) :
    (cameraUpdate cam).boundingRectangle =
      (if cam.position.x - 250 / cam.zoom - cam.xBounds.x < 0 then
        (⟨cam.xBounds.x, cam.position.y - 375 / cam.zoom,
          500 / cam.zoom, 750 / cam.zoom⟩ : Rect)
      else if cam.position.x - 250 / cam.zoom + 500 / cam.zoom - cam.xBounds.y > 0 then
        ⟨cam.xBounds.y - 500 / cam.zoom, cam.position.y - 375 / cam.zoom,
          500 / cam.zoom, 750 / cam.zoom⟩
      else ⟨cam.position.x - 250 / cam.zoom, cam.position.y - 375 / cam.zoom,
          500 / cam.zoom, 750 / cam.zoom⟩) := by
  unfold cameraUpdate
  simp only [Rect.left, Rect.right, computeMatrix_boundingRectangle cam hz,
    computeMatrix_xBounds, computeMatrix_position, computeMatrix_zoom]
  split_ifs with h1 h2
  · rw [computeMatrix_boundingRectangle _ (by exact hz)]
    dsimp only
    simp only [computeMatrix_position, computeMatrix_zoom, computeMatrix_xBounds,
      Rect.mk.injEq]
    and_intros <;> first | trivial | ring
  · rw [computeMatrix_boundingRectangle _ (by exact hz)]
    dsimp only
    simp only [computeMatrix_position, computeMatrix_zoom, computeMatrix_xBounds,
      Rect.mk.injEq]
    and_intros <;> first | trivial | ring
  · rw [computeMatrix_boundingRectangle cam hz]

/-- A camera whose view (width 500 / zoom = 1000) is wider than the
configured horizontal bounds [0, 500], as arises for any zoom below 1. -/
def c2cam : CameraS :=
  ⟨⟨0, 0⟩, 1/2, Mat.identityM, ⟨0, 0, 0, 0⟩, ⟨0, 0, 0, 0⟩, ⟨0, 500⟩⟩

/-- Counterexample to claim C2 as stated: this camera position has its view
rectangle partly outside the horizontal bounds, yet after Camera.update the
bounding rectangle does not lie fully within them — the left edge is clamped
to the bound but the right edge (at 1000) still exceeds 500. -/
theorem claim_C2_counterexample :
    (computeMatrix c2cam).boundingRectangle.left < c2cam.xBounds.x ∧
    ¬ ((cameraUpdate c2cam).boundingRectangle.right ≤ c2cam.xBounds.y) ∧
    (cameraUpdate c2cam).boundingRectangle.left = c2cam.xBounds.x := by
  have hz : c2cam.zoom ≠ 0 := by norm_num [c2cam]
  have hbr := computeMatrix_boundingRectangle c2cam hz
  have hspec := cameraUpdate_spec c2cam hz
  refine ⟨?_, ?_, ?_⟩
  · rw [hbr]; norm_num [c2cam, Rect.left]
  · rw [hspec]; norm_num [c2cam, Rect.right]
  · rw [hspec]; norm_num [c2cam, Rect.left]

/-- Claim C2 (amended): whenever the view width `APP_SIZE.x / zoom` does not
exceed the width of the horizontal bounds, any camera position whose view
rectangle lies partly outside the bounds is clamped by Camera.update so that
the computed bounding rectangle lies fully within them, and whenever the left
edge overlaps it is corrected exactly onto the left bound (left priority). -/
theorem claim_C2 (pos : Vec) (zoom : ℚ) (m0 : Mat) (br0 nb0 : Rect) (xb : Vec)
    (hz : 0 < zoom) (hw : 500 / zoom ≤ xb.y - xb.x)
    (hout : (computeMatrix ⟨pos, zoom, m0, br0, nb0, xb⟩).boundingRectangle.left < xb.x ∨
      xb.y < (computeMatrix ⟨pos, zoom, m0, br0, nb0, xb⟩).boundingRectangle.right) :
    xb.x ≤ (cameraUpdate ⟨pos, zoom, m0, br0, nb0, xb⟩).boundingRectangle.left ∧
    (cameraUpdate ⟨pos, zoom, m0, br0, nb0, xb⟩).boundingRectangle.right ≤ xb.y ∧
    ((computeMatrix ⟨pos, zoom, m0, br0, nb0, xb⟩).boundingRectangle.left < xb.x →
      (cameraUpdate ⟨pos, zoom, m0, br0, nb0, xb⟩).boundingRectangle.left = xb.x) := by
  have hz0 : (CameraS.mk pos zoom m0 br0 nb0 xb).zoom ≠ 0 := hz.ne'
  have hbr := computeMatrix_boundingRectangle _ hz0
  have hspec := cameraUpdate_spec _ hz0
  dsimp only at hbr hspec
  have h500 : 250 / zoom + 250 / zoom = 500 / zoom := by
    rw [div_add_div_same]; norm_num
  rw [hbr] at hout
  rw [hspec, hbr]
  simp only [Rect.left, Rect.right] at hout ⊢
  split_ifs with h1 h2
  · refine ⟨le_refl _, by linarith, fun h3 => rfl⟩
  · refine ⟨by linarith, by linarith, fun h3 => by linarith⟩
  · refine ⟨by linarith, by linarith, fun h3 => by linarith⟩

/-- Witness for claim C2: a camera at x = -100 with zoom 1 pokes out of the
left bound and is clamped back inside. -/
theorem claim_C2_witness :
    0 ≤ (cameraUpdate ⟨⟨-100, 0⟩, 1, Mat.identityM, ⟨0, 0, 0, 0⟩, ⟨0, 0, 0, 0⟩,
      ⟨0, 500⟩⟩).boundingRectangle.left ∧
    (cameraUpdate ⟨⟨-100, 0⟩, 1, Mat.identityM, ⟨0, 0, 0, 0⟩, ⟨0, 0, 0, 0⟩,
      ⟨0, 500⟩⟩).boundingRectangle.right ≤ 500 := by
  have h := claim_C2 ⟨-100, 0⟩ 1 Mat.identityM ⟨0, 0, 0, 0⟩ ⟨0, 0, 0, 0⟩ ⟨0, 500⟩
    (by norm_num) (by norm_num)
    (Or.inl (by
      rw [computeMatrix_boundingRectangle _ (by norm_num)]
      norm_num [Rect.left]))
  exact ⟨h.1, h.2.1⟩

lemma zmod7_sq_add_sq_eq_zero :
    ∀ x y : ZMod 7, x ^ 2 + y ^ 2 = 0 → x = 0 ∧ y = 0 := by decide

/-- No integer point has squared length 3500 c^2 with c positive: 7 divides
3500 exactly once, and -1 is not a square mod 7, giving an infinite descent. -/
lemma int_sq_add_sq_3500 :
    ∀ c : ℕ, ∀ A B : ℤ, A ^ 2 + B ^ 2 = 3500 * (c : ℤ) ^ 2 → c = 0 := by
  intro c
  induction c using Nat.strong_induction_on with
  | _ c ih =>
    intro A B h
    rcases Nat.eq_zero_or_pos c with hc | hc
    · exact hc
    have h7 : ((A : ZMod 7)) ^ 2 + ((B : ZMod 7)) ^ 2 = 0 := by
      have hcast := congrArg (fun z : ℤ => (z : ZMod 7)) h
      push_cast at hcast
      rw [hcast]
      have h0 : (3500 : ZMod 7) = 0 := by decide
      rw [h0, zero_mul]
    obtain ⟨hA, hB⟩ := zmod7_sq_add_sq_eq_zero _ _ h7
    have hdA : (7 : ℤ) ∣ A := by
      rwa [ZMod.intCast_zmod_eq_zero_iff_dvd] at hA
    have hdB : (7 : ℤ) ∣ B := by
      rwa [ZMod.intCast_zmod_eq_zero_iff_dvd] at hB
    obtain ⟨a, rfl⟩ := hdA
    obtain ⟨b, rfl⟩ := hdB
    have hexp : 49 * a ^ 2 + 49 * b ^ 2 = 3500 * (c : ℤ) ^ 2 := by linear_combination h
    have h2 : 7 * (a ^ 2 + b ^ 2) = 500 * (c : ℤ) ^ 2 := by linarith
    have h7c : (7 : ℤ) ∣ (c : ℤ) := by
      have hdvd : (7 : ℤ) ∣ 500 * (c : ℤ) ^ 2 := ⟨a ^ 2 + b ^ 2, by linarith⟩
      have hp : Prime (7 : ℤ) := by norm_num
      rcases hp.dvd_mul.mp hdvd with h500 | hcc
      · norm_num at h500
      · exact hp.dvd_of_dvd_pow hcc
    obtain ⟨cq, hcq⟩ : (7 : ℕ) ∣ c := by exact_mod_cast h7c
    subst hcq
    have hcast2 : ((7 * cq : ℕ) : ℤ) = 7 * (cq : ℤ) := by push_cast; ring
    rw [hcast2] at h2
    have hexp2 : 7 * (a ^ 2 + b ^ 2) = 24500 * (cq : ℤ) ^ 2 := by linear_combination h2
    have h3 : a ^ 2 + b ^ 2 = 3500 * (cq : ℤ) ^ 2 := by linarith
    have := ih cq (by omega) a b h3
    omega

/-- No rational point has squared length exactly 3500 (clear denominators and
apply the integer descent). -/
lemma rat_sq_add_sq_ne_3500 (q r : ℚ) : q ^ 2 + r ^ 2 ≠ 3500 := by
  intro h
  have hqden : ((q.den : ℚ)) ≠ 0 := by exact_mod_cast q.den_nz
  have hrden : ((r.den : ℚ)) ≠ 0 := by exact_mod_cast r.den_nz
  have hq : (q.num : ℚ) = q * q.den := (div_eq_iff hqden).mp (Rat.num_div_den q)
  have hr : (r.num : ℚ) = r * r.den := (div_eq_iff hrden).mp (Rat.num_div_den r)
  have key : ((q.num * (r.den : ℤ) : ℤ) : ℚ) ^ 2 + ((r.num * (q.den : ℤ) : ℤ) : ℚ) ^ 2 =
      3500 * (((q.den * r.den : ℕ) : ℤ) : ℚ) ^ 2 := by
    push_cast
    rw [hq, hr]
    linear_combination ((q.den : ℚ) * (r.den : ℚ)) ^ 2 * h
  have keyZ : (q.num * (r.den : ℤ)) ^ 2 + (r.num * (q.den : ℤ)) ^ 2 =
      3500 * ((q.den * r.den : ℕ) : ℤ) ^ 2 := by exact_mod_cast key
  have hzero := int_sq_add_sq_3500 (q.den * r.den) _ _ keyZ
  have := q.den_nz
  have := r.den_nz
  exact absurd hzero (by positivity)

/-- No Vec has lengthSq exactly 3500, so the release-validity boundary value
FLING_FORCE_MIN itself can never be attained by an exact drag vector. -/
lemma vec_lengthSq_ne_3500 (v : Vec) : v.lengthSq ≠ 3500 := by
  unfold Vec.lengthSq
  intro hc
  exact rat_sq_add_sq_ne_3500 v.x v.y (by rw [pow_two, pow_two]; exact hc)

/-- Claim C1: a release while Aiming is cancelled (velocity and charge
untouched) exactly when `|flingForce|^2 < FLING_FORCE_MIN` or the charge is 0;
the boundary value 3500 is unattainable as an exact squared length, so a
release at exactly 3500 trivially satisfies any behaviour, in particular the
claimed invalidity; and a release at 3501 with at least one fling is valid,
spends exactly one charge and sets velocity to `flingForce * 5`. -/
theorem claim_C1 (p : PlayerS) (t : TimeS) (hA : p.playerState = PState.Aiming) :
    (((onFling p t).1.vel = p.vel ∧ (onFling p t).1.flings = p.flings) ↔
      (p.flingForce.lengthSq < FLING_FORCE_MIN ∨ p.flings = 0)) ∧
    (∀ v : Vec, v.lengthSq ≠ 3500) ∧
    (p.flingForce.lengthSq = 3501 → 1 ≤ p.flings →
      (onFling p t).1.flings = p.flings - 1 ∧
      (onFling p t).1.vel = p.flingForce.smul 5) := by
  unfold onFling exitAiming
  simp only [hA, ne_eq, not_true_eq_false, if_false]
  refine ⟨?_, fun v => vec_lengthSq_ne_3500 v, ?_⟩
  · split_ifs with hcond
    · exact iff_of_true ⟨rfl, rfl⟩ hcond
    · refine iff_of_false ?_ hcond
      push_neg at hcond
      rintro ⟨hv, hf⟩
      dsimp only at hf
      unfold setFlingAmount at hf
      have := hcond.2
      revert hf
      split <;> omega
  · intro h1 h2
    have hcond : ¬ (p.flingForce.lengthSq < FLING_FORCE_MIN ∨ p.flings = 0) := by
      rw [h1]
      unfold FLING_FORCE_MIN
      push_neg
      exact ⟨by norm_num, by omega⟩
    rw [if_neg hcond]
    refine ⟨?_, rfl⟩
    show setFlingAmount (p.flings - 1) = p.flings - 1
    unfold setFlingAmount
    split <;> omega

/-- Witness for claim C1: a player aiming with flingForce (30, 51), whose
squared length is 3501, and 5 flings: the release spends one charge and sets
velocity to (150, 255). -/
theorem claim_C1_witness :
    (onFling ⟨⟨0, 0⟩, ⟨1, 2⟩, ⟨0, 0⟩, PState.Aiming, 5, ⟨30, 51⟩, 10, true, ⟨0, 0⟩⟩
      ⟨1, 1⟩).1.flings = 5 - 1 ∧
    (onFling ⟨⟨0, 0⟩, ⟨1, 2⟩, ⟨0, 0⟩, PState.Aiming, 5, ⟨30, 51⟩, 10, true, ⟨0, 0⟩⟩
      ⟨1, 1⟩).1.vel = Vec.smul ⟨30, 51⟩ 5 :=
  (claim_C1 ⟨⟨0, 0⟩, ⟨1, 2⟩, ⟨0, 0⟩, PState.Aiming, 5, ⟨30, 51⟩, 10, true, ⟨0, 0⟩⟩
    ⟨1, 1⟩ rfl).2.2 (by norm_num [Vec.lengthSq]) (by norm_num)

/-- The Math.random oracle: a stream of draws in [0,1) and a cursor.
Determinism of everything else is preserved by threading the cursor. -/
structure Rng where
  vals : ℕ → ℚ
  idx : ℕ

/-- The `random` utility: `Math.random() * max`, consuming one draw. -/
def randomQ (maxv : ℚ) (r : Rng) : ℚ × Rng :=
  (r.vals r.idx * maxv, ⟨r.vals, r.idx + 1⟩)

/-- The `randomRange` utility: `random(max - min) + min`. -/
def randomRange (lo hi : ℚ) (r : Rng) : ℚ × Rng :=
  let v := randomQ (hi - lo) r
  (v.1 + lo, v.2)

/-- The `randomRange2D` utility: x from [bounds.x, bounds.right], y from
[bounds.y, bounds.bottom], with the x draw taken first. -/
def randomRange2D (bounds : Rect) (r : Rng) : Vec × Rng :=
  let vx := randomRange bounds.x bounds.right r
  let vy := randomRange bounds.y bounds.bottom vx.2
  (⟨vx.1, vy.1⟩, vy.2)

/-- Obstacle state: position, base collider radius, scale and the derived
collider radius.  `rotUnit` is the raw unit draw of the last spike rotation:
the source stores `rotUnit * 2π`, a visual-only angle; the unit draw is kept
instead because 2π is irrational, and only the oracle-cursor advance of the
draw is observable to the rest of the logic. -/
structure Obst where
  pos : Vec
  baseColliderRadius : ℚ
  scale : ℚ
  colliderRadius : ℚ
  rotUnit : ℚ
deriving DecidableEq

/-- PhysicsObject.setScale: store the scale and recompute the collider
radius as base times scale. -/
def obstSetScale (o : Obst) (s : ℚ) : Obst :=
  { o with scale := s, colliderRadius := o.baseColliderRadius * s }

/-- Obstacle.respawn: a random position within the bounds, then a random
scale within [scaleMin, scaleMax]. -/
def obstRespawn (o : Obst) (bounds : Rect) (scaleMin scaleMax : ℚ) (r : Rng) :
    Obst × Rng :=
  let pv := randomRange2D bounds r
  let sv := randomRange scaleMin scaleMax pv.2
  (obstSetScale { o with pos := pv.1 } sv.1, sv.2)

/-- Orb.respawn: scale range [0.5, 1]. -/
def orbRespawn (o : Obst) (bounds : Rect) (r : Rng) : Obst × Rng :=
  obstRespawn o bounds (1/2) 1 r

/-- Spike.respawn: scale range [0.5, 1], plus one extra draw for the random
rotation `random(TWO_PI)`. -/
def spikeRespawn (o : Obst) (bounds : Rect) (r : Rng) : Obst × Rng :=
  let v := obstRespawn o bounds (1/2) 1 r
  let rotv := randomQ 1 v.2
  ({ v.1 with rotUnit := rotv.1 }, rotv.2)

/-- Orb.destroy: particle effect and sound are external; then respawn. -/
def orbDestroy (o : Obst) (bounds : Rect) (r : Rng) : Obst × Rng :=
  orbRespawn o bounds r

/-- Spike.destroy: particle effect and sounds are external; then respawn. -/
def spikeDestroy (o : Obst) (bounds : Rect) (r : Rng) : Obst × Rng :=
  spikeRespawn o bounds r

/-- The orb branch of Player.checkCollisions: mirror horizontal velocity,
bounce upward by `|vy| * ORB_BOOST_MULTIPLIER`, gain one fling. -/
def orbReaction (p : PlayerS) : PlayerS :=
  { p with
      vel := ⟨-p.vel.x, -|p.vel.y| * ORB_BOOST_MULTIPLIER⟩
      flings := setFlingAmount (p.flings + 1) }

/-- The spike branch of Player.checkCollisions: velocity scaled by -0.5 and
one fling lost. -/
def spikeReaction (p : PlayerS) : PlayerS :=
  { p with
      vel := p.vel.smul (-(1/2))
      flings := setFlingAmount (p.flings - 1) }

/-- The `for (const orb of ORBS)` loop of Player.checkCollisions. -/
def processOrbs (p : PlayerS) (orbs : List Obst) (bound : Rect) (r : Rng) :
    PlayerS × List Obst × Rng :=
  match orbs with
  | [] => (p, [], r)
  | o :: rest =>
    if isColliding p.pos p.colliderRadius o.pos o.colliderRadius then
      let p1 := orbReaction p
      let d := orbDestroy o bound r
      let res := processOrbs p1 rest bound d.2
      (res.1, d.1 :: res.2.1, res.2.2)
    else
      let res := processOrbs p rest bound r
      (res.1, o :: res.2.1, res.2.2)

/-- The `for (const spike of SPIKES)` loop of Player.checkCollisions. -/
def processSpikes (p : PlayerS) (spikes : List Obst) (bound : Rect) (r : Rng) :
    PlayerS × List Obst × Rng :=
  match spikes with
  | [] => (p, [], r)
  | o :: rest =>
    if isColliding p.pos p.colliderRadius o.pos o.colliderRadius then
      let p1 := spikeReaction p
      let d := spikeDestroy o bound r
      let res := processSpikes p1 rest bound d.2
      (res.1, d.1 :: res.2.1, res.2.2)
    else
      let res := processSpikes p rest bound r
      (res.1, o :: res.2.1, res.2.2)

/-- Player.checkCollisions: the orb loop runs to completion, then the spike
loop, destroyed obstacles respawning into the passed next camera bound. -/
def checkCollisions (p : PlayerS) (orbs spikes : List Obst) (bound : Rect)
    (r : Rng) : PlayerS × List Obst × List Obst × Rng :=
  let ro := processOrbs p orbs bound r
  let rs := processSpikes ro.1 spikes bound ro.2.2
  (rs.1, ro.2.1, rs.2.1, rs.2.2)

lemma randomRange_bounds (lo hi : ℚ) (r : Rng)
    (h0 : 0 ≤ r.vals r.idx) (h1 : r.vals r.idx < 1) (hle : lo ≤ hi) :
    lo ≤ (randomRange lo hi r).1 ∧ (randomRange lo hi r).1 ≤ hi := by
  unfold randomRange randomQ
  dsimp only
  constructor
  · nlinarith [mul_nonneg h0 (by linarith : (0:ℚ) ≤ hi - lo)]
  · nlinarith [mul_nonneg (by linarith : (0:ℚ) ≤ 1 - r.vals r.idx)
      (by linarith : (0:ℚ) ≤ hi - lo)]

lemma orbRespawn_pos_mem (o : Obst) (bound : Rect) (r : Rng)
    (h01 : ∀ i, 0 ≤ r.vals i ∧ r.vals i < 1)
    (hw : 0 ≤ bound.width) (hh : 0 ≤ bound.height) :
    bound.x ≤ (orbRespawn o bound r).1.pos.x ∧
    (orbRespawn o bound r).1.pos.x ≤ bound.right ∧
    bound.y ≤ (orbRespawn o bound r).1.pos.y ∧
    (orbRespawn o bound r).1.pos.y ≤ bound.bottom := by
  have hx := randomRange_bounds bound.x bound.right r (h01 r.idx).1 (h01 r.idx).2
    (by unfold Rect.right; linarith)
  have hy := randomRange_bounds bound.y bound.bottom ⟨r.vals, r.idx + 1⟩
    (h01 (r.idx + 1)).1 (h01 (r.idx + 1)).2 (by unfold Rect.bottom; linarith)
  unfold orbRespawn obstRespawn randomRange2D obstSetScale
  unfold randomRange randomQ at hx hy ⊢
  dsimp only at hx hy ⊢
  exact ⟨hx.1, hx.2, hy.1, hy.2⟩

lemma processOrbs_nil (p : PlayerS) (bound : Rect) (r : Rng) :
    processOrbs p [] bound r = (p, [], r) := rfl

lemma processSpikes_nil (p : PlayerS) (bound : Rect) (r : Rng) :
    processSpikes p [] bound r = (p, [], r) := rfl

lemma processOrbs_no_overlap (bound : Rect) :
    ∀ (orbs : List Obst) (p : PlayerS) (r : Rng),
    (∀ o ∈ orbs, ¬ isColliding p.pos p.colliderRadius o.pos o.colliderRadius) →
    processOrbs p orbs bound r = (p, orbs, r) := by
  intro orbs
  induction orbs with
  | nil => intro p r h; rfl
  | cons o rest ih =>
    intro p r h
    unfold processOrbs
    rw [if_neg (h o (List.mem_cons_self o rest))]
    rw [ih p r (fun o2 ho2 => h o2 (List.mem_cons_of_mem o ho2))]

lemma processSpikes_no_overlap (bound : Rect) :
    ∀ (spikes : List Obst) (p : PlayerS) (r : Rng),
    (∀ o ∈ spikes, ¬ isColliding p.pos p.colliderRadius o.pos o.colliderRadius) →
    processSpikes p spikes bound r = (p, spikes, r) := by
  intro spikes
  induction spikes with
  | nil => intro p r h; rfl
  | cons o rest ih =>
    intro p r h
    unfold processSpikes
    rw [if_neg (h o (List.mem_cons_self o rest))]
    rw [ih p r (fun o2 ho2 => h o2 (List.mem_cons_of_mem o ho2))]

lemma checkCollisions_no_overlap (p : PlayerS) (orbs spikes : List Obst)
    (bound : Rect) (r : Rng)
    (ho : ∀ o ∈ orbs, ¬ isColliding p.pos p.colliderRadius o.pos o.colliderRadius)
    (hs : ∀ o ∈ spikes, ¬ isColliding p.pos p.colliderRadius o.pos o.colliderRadius) :
    checkCollisions p orbs spikes bound r = (p, orbs, spikes, r) := by
  unfold checkCollisions
  rw [processOrbs_no_overlap bound orbs p r ho]
  dsimp only
  rw [processSpikes_no_overlap bound spikes p r hs]

lemma orbReaction_flings (p : PlayerS) (hp : 0 ≤ p.flings) :
    (orbReaction p).flings = p.flings + 1 := by
  unfold orbReaction setFlingAmount
  dsimp only
  split <;> omega

lemma processOrbs_all_overlap (bound : Rect)
    (hw : 0 ≤ bound.width) (hh : 0 ≤ bound.height) :
    ∀ (orbs : List Obst) (p : PlayerS) (r : Rng), 0 ≤ p.flings →
    (∀ i, 0 ≤ r.vals i ∧ r.vals i < 1) →
    (∀ o ∈ orbs, isColliding p.pos p.colliderRadius o.pos o.colliderRadius) →
    (processOrbs p orbs bound r).1.flings = p.flings + orbs.length ∧
    ∀ o2 ∈ (processOrbs p orbs bound r).2.1,
      bound.x ≤ o2.pos.x ∧ o2.pos.x ≤ bound.right ∧
      bound.y ≤ o2.pos.y ∧ o2.pos.y ≤ bound.bottom := by
  intro orbs
  induction orbs with
  | nil =>
    intro p r hp h01 hall
    exact ⟨by simp [processOrbs], by simp [processOrbs]⟩
  | cons o rest ih =>
    intro p r hp h01 hall
    unfold processOrbs
    rw [if_pos (hall o (List.mem_cons_self o rest))]
    dsimp only
    have hreact := orbReaction_flings p hp
    have ihres := ih (orbReaction p) (orbDestroy o bound r).2
      (by rw [hreact]; omega) h01
      (fun o2 ho2 => hall o2 (List.mem_cons_of_mem o ho2))
    refine ⟨?_, ?_⟩
    · rw [ihres.1, hreact]
      simp [List.length_cons]
      omega
    · intro o2 ho2
      rcases List.mem_cons.mp ho2 with heq | hmem
      · subst heq
        exact orbRespawn_pos_mem o bound r h01 hw hh
      · exact ihres.2 o2 hmem

/-- Claim C6: a player overlapping an orb gets velocity
`(-vx, -|vy| * 1.2)`, one more fling, and the orb is respawned inside the
passed next camera bound; with velocity (10, -50) the result is (-10, -60);
the orb loop runs to completion before the spike loop (a simultaneous spike
overlap is applied to the post-orb player), and no overlapping orb is
skipped. -/
theorem claim_C6 (p : PlayerS) (o : Obst) (bound : Rect) (r : Rng)
    (hover : isColliding p.pos p.colliderRadius o.pos o.colliderRadius)
    (hp : 0 ≤ p.flings)
    (h01 : ∀ i, 0 ≤ r.vals i ∧ r.vals i < 1)
    (hw : 0 ≤ bound.width) (hh : 0 ≤ bound.height) :
    ((checkCollisions p [o] [] bound r).1.vel =
        ⟨-p.vel.x, -|p.vel.y| * ORB_BOOST_MULTIPLIER⟩ ∧
      (checkCollisions p [o] [] bound r).1.flings = p.flings + 1 ∧
      ∀ o2 ∈ (checkCollisions p [o] [] bound r).2.1,
        bound.x ≤ o2.pos.x ∧ o2.pos.x ≤ bound.right ∧
        bound.y ≤ o2.pos.y ∧ o2.pos.y ≤ bound.bottom) ∧
    (∀ sp : Obst,
      isColliding p.pos p.colliderRadius sp.pos sp.colliderRadius →
      (checkCollisions p [o] [sp] bound r).1 = spikeReaction (orbReaction p)) ∧
    (∀ orbs : List Obst,
      (∀ o2 ∈ orbs, isColliding p.pos p.colliderRadius o2.pos o2.colliderRadius) →
      (processOrbs p orbs bound r).1.flings = p.flings + orbs.length) ∧
    (p.vel = ⟨10, -50⟩ →
      (checkCollisions p [o] [] bound r).1.vel = ⟨-10, -60⟩) := by
  have hsingle : (checkCollisions p [o] [] bound r).1 = orbReaction p := by
    unfold checkCollisions processOrbs
    rw [if_pos hover]
    rfl
  have horbs : (checkCollisions p [o] [] bound r).2.1 =
      [(orbDestroy o bound r).1] := by
    unfold checkCollisions processOrbs
    rw [if_pos hover]
    rfl
  refine ⟨⟨?_, ?_, ?_⟩, ?_, ?_, ?_⟩
  · rw [hsingle]; rfl
  · rw [hsingle]; exact orbReaction_flings p hp
  · intro o2 ho2
    rw [horbs] at ho2
    rcases List.mem_singleton.mp ho2 with rfl
    exact orbRespawn_pos_mem o bound r h01 hw hh
  · intro sp hsp
    unfold checkCollisions processOrbs
    rw [if_pos hover]
    simp only [processOrbs_nil]
    unfold processSpikes
    rw [if_pos (show isColliding (orbReaction p).pos (orbReaction p).colliderRadius
      sp.pos sp.colliderRadius from hsp)]
    rfl
  · intro orbs hall
    exact (processOrbs_all_overlap bound hw hh orbs p r hp h01 hall).1
  · intro hv
    rw [hsingle]
    unfold orbReaction
    rw [hv]
    dsimp only
    norm_num [ORB_BOOST_MULTIPLIER]

/-- Witness for claim C6 at a concrete overlap: player at the origin moving
(10, -50) with 2 flings, an orb on top of it, a [0,1) oracle. -/
theorem claim_C6_witness :
    (checkCollisions ⟨⟨0, 0⟩, ⟨10, -50⟩, ⟨0, 0⟩, PState.Idle, 2, ⟨0, 0⟩, 10,
        false, ⟨0, 0⟩⟩ [⟨⟨0, 0⟩, 40, 1, 40, 0⟩] [] ⟨0, -750, 500, 750⟩
        ⟨fun _ => 1/2, 0⟩).1.vel = ⟨-10, -60⟩ ∧
    (checkCollisions ⟨⟨0, 0⟩, ⟨10, -50⟩, ⟨0, 0⟩, PState.Idle, 2, ⟨0, 0⟩, 10,
        false, ⟨0, 0⟩⟩ [⟨⟨0, 0⟩, 40, 1, 40, 0⟩] [] ⟨0, -750, 500, 750⟩
        ⟨fun _ => 1/2, 0⟩).1.flings = 2 + 1 := by
  have h := claim_C6 ⟨⟨0, 0⟩, ⟨10, -50⟩, ⟨0, 0⟩, PState.Idle, 2, ⟨0, 0⟩, 10,
      false, ⟨0, 0⟩⟩ ⟨⟨0, 0⟩, 40, 1, 40, 0⟩ ⟨0, -750, 500, 750⟩
      ⟨fun _ => 1/2, 0⟩
    (by norm_num [isColliding, Vec.distanceSq]) (by norm_num)
    (fun i => by norm_num) (by norm_num) (by norm_num)
  exact ⟨h.2.2.2 rfl, h.1.2.1⟩

/-- The CAMERA_ZOOM_DEFAULT constant. -/
def CAMERA_ZOOM_DEFAULT : ℚ := 1

/-- The CAMERA_ZOOM_AIMING constant, CAMERA_ZOOM_DEFAULT * 1.5. -/
def CAMERA_ZOOM_AIMING : ℚ := CAMERA_ZOOM_DEFAULT * (15/10)

/-- The CAMERA_EASING_FACTOR constant. -/
def CAMERA_EASING_FACTOR : ℚ := 1/10

/-- The CAMERA_AIMING_EASING_FACTOR constant. -/
def CAMERA_AIMING_EASING_FACTOR : ℚ := 5/100

/-- The CAMERA_SPEEDING_EASING_FACTOR constant. -/
def CAMERA_SPEEDING_EASING_FACTOR : ℚ := 3/10

/-- The TIME_EASING_FACTOR constant. -/
def TIME_EASING_FACTOR : ℚ := 1/10

/-- The input-manager globals: latched pointer samples. -/
structure InputS where
  mouseClientPosition : Vec
  mouseCanvasPosition : Vec
  mouseDown : Bool
  mouseDownCanvasPosition : Vec
  mouseUpCanvasPosition : Vec
deriving DecidableEq

/-- The whole mutable state one frame reads and writes: the singletons, the
obstacle lists, the random oracle, the latched input and the persistence
globals.  `menuRequested` records the transitionToMenu call of whenDead. -/
structure Game where
  player : PlayerS
  time : TimeS
  cam : CameraS
  wave : WaveS
  orbs : List Obst
  spikes : List Obst
  rng : Rng
  input : InputS
  appClientPosition : Vec
  mouseWorldPosition : Vec
  highestDeathHeight : ℤ
  lastDeathHeight : ℤ
  menuRequested : Bool

/-- Player.whenAim: recompute flingForce from the press sample and the
current pointer sample, ease the camera toward the last indicator ball in
world space, then reposition the indicators (the last ball lands at
`flingForce * 0.7`, since its lerp fraction is 1). -/
def whenAim (p : PlayerS) (cam : CameraS) (input : InputS) : PlayerS × CameraS :=
  let ff := input.mouseDownCanvasPosition.sub input.mouseCanvasPosition
  let p1 := { p with flingForce := ff }
  let cam1 := easeTo cam (p1.lastIndicatorPos.add p1.pos) CAMERA_ZOOM_AIMING
    CAMERA_AIMING_EASING_FACTOR
  let p2 := { p1 with lastIndicatorPos := ff.smul (7/10) }
  (p2, cam1)

/-- Player.whenAlive: death on wave contact (skipping the obstacle checks),
otherwise the obstacle collision checks against the next camera bound. -/
def aliveStep (g : Game) : Game :=
  if waveContains g.wave g.player.pos then
    let d := onDeath g.player g.time g.highestDeathHeight
    { g with
        player := d.player
        time := d.time
        lastDeathHeight := d.lastDeathHeight
        highestDeathHeight := d.highestDeathHeight }
  else
    let cc := checkCollisions g.player g.orbs g.spikes g.cam.nextCameraBound g.rng
    { g with player := cc.1, orbs := cc.2.1, spikes := cc.2.2.1, rng := cc.2.2.2 }

/-- Player.update: FSM dispatch (whenDead / whenAlive / whenAlive + whenAim /
whenTutorial), then gravity into the pending acceleration, then the wall
bounce against the camera bounding rectangle, then the PhysicsObject
integration step. -/
def playerUpdate (g : Game) (timeSpeed : ℚ) : Game :=
  let g1 : Game :=
    match g.player.playerState with
    | PState.Dead =>
        if g.wave.y < g.cam.boundingRectangle.top then
          { g with menuRequested := true }
        else g
    | PState.Idle => aliveStep g
    | PState.Aiming =>
        let ga := aliveStep g
        let pa := whenAim ga.player ga.cam ga.input
        { ga with player := pa.1, cam := pa.2 }
    | PState.Tutorial => { g with time := whenTutorial g.time }
  let p2 : PlayerS := { g1.player with acc := g1.player.acc.add (GRAVITY.smul timeSpeed) }
  let p3 : PlayerS :=
    if p2.pos.x < g1.cam.boundingRectangle.left then
      { p2 with
          pos := ⟨g1.cam.boundingRectangle.left, p2.pos.y⟩
          vel := ⟨p2.vel.x * (-1), p2.vel.y⟩ }
    else if p2.pos.x > g1.cam.boundingRectangle.right then
      { p2 with
          pos := ⟨g1.cam.boundingRectangle.right, p2.pos.y⟩
          vel := ⟨p2.vel.x * (-1), p2.vel.y⟩ }
    else p2
  let ph := physicsUpdate ⟨p3.pos, p3.vel, p3.acc⟩ timeSpeed
  { g1 with player := { p3 with pos := ph.pos, vel := ph.vel, acc := ph.acc } }

/-- Obstacle.update for an orb: respawn into the next camera bound when it
has fallen more than 100 units below the wave top. -/
def orbObjUpdate (o : Obst) (waveY : ℚ) (nextBound : Rect) (r : Rng) :
    Obst × Rng :=
  if o.pos.y > waveY + 100 then orbRespawn o nextBound r else (o, r)

/-- Obstacle.update for a spike. -/
def spikeObjUpdate (o : Obst) (waveY : ℚ) (nextBound : Rect) (r : Rng) :
    Obst × Rng :=
  if o.pos.y > waveY + 100 then spikeRespawn o nextBound r else (o, r)

/-- The orb portion of the OBJECTS update loop, in creation order. -/
def updateOrbList : List Obst → ℚ → Rect → Rng → List Obst × Rng
  | [], _, _, r => ([], r)
  | o :: rest, wy, nb, r =>
      let u := orbObjUpdate o wy nb r
      let us := updateOrbList rest wy nb u.2
      (u.1 :: us.1, us.2)

/-- The spike portion of the OBJECTS update loop. -/
def updateSpikeList : List Obst → ℚ → Rect → Rng → List Obst × Rng
  | [], _, _, r => ([], r)
  | o :: rest, wy, nb, r =>
      let u := spikeObjUpdate o wy nb r
      let us := updateSpikeList rest wy nb u.2
      (u.1 :: us.1, us.2)

/-- updateGame: camera follow (faster easing above speed 6000000 squared),
Camera.update, pointer world position, the physics-manager time easing, then
the OBJECTS loop (orbs, spikes, player in creation order) and the wave. -/
def updateGame (g : Game) (elapsedMS : ℚ) : Game :=
  let easeFactor :=
    if g.player.vel.lengthSq > 6000000 then CAMERA_SPEEDING_EASING_FACTOR
    else CAMERA_EASING_FACTOR
  let cam1 := easeTo g.cam g.player.pos CAMERA_ZOOM_DEFAULT easeFactor
  let cam2 := cameraUpdate cam1
  let mw := canvasToWorld cam2 g.input.mouseCanvasPosition
  let cgs := lerp g.time.currentGameSpeed g.time.targetGameSpeed TIME_EASING_FACTOR
  let ts := cgs * elapsedMS * (1/1000)
  let g1 := { g with
    cam := cam2
    mouseWorldPosition := mw
    time := { currentGameSpeed := cgs, targetGameSpeed := g.time.targetGameSpeed } }
  let uo := updateOrbList g1.orbs g1.wave.y g1.cam.nextCameraBound g1.rng
  let us := updateSpikeList g1.spikes g1.wave.y g1.cam.nextCameraBound uo.2
  let g2 := { g1 with orbs := uo.1, spikes := us.1, rng := us.2 }
  let g3 := playerUpdate g2 ts
  { g3 with
    wave := waveUpdate g3.wave ts g3.player.playerState
      g3.cam.boundingRectangle.bottom }

/-- The externally triggered events: the pointer handlers of the input
manager (which latch a sample and then fire the player transition) and one
game-scene frame with its elapsed milliseconds. -/
inductive GEvent
  | pointermove (client : Vec)
  | pointerdown (client : Vec)
  | pointerup (client : Vec)
  | tick (elapsedMS : ℚ)

/-- One event of the input manager or game loop. -/
def gameStep (g : Game) : GEvent → Game
  | GEvent.pointermove c =>
      let canvas := c.sub g.appClientPosition
      { g with input := { g.input with
          mouseClientPosition := c
          mouseCanvasPosition := canvas } }
  | GEvent.pointerdown c =>
      let canvas := c.sub g.appClientPosition
      let g1 := { g with input := { g.input with
          mouseDown := true
          mouseDownCanvasPosition := canvas } }
      let pa := onAim g1.player g1.time
      { g1 with player := pa.1, time := pa.2 }
  | GEvent.pointerup c =>
      let canvas := c.sub g.appClientPosition
      let g1 := { g with input := { g.input with
          mouseDown := false
          mouseUpCanvasPosition := canvas } }
      let pf := onFling g1.player g1.time
      { g1 with player := pf.1, time := pf.2 }
  | GEvent.tick e => updateGame g e

/-- Claim C10: onAim is guarded only against Dead — fired while Tutorial (or
Idle) it sets the state to Aiming, so the first aim-start exits Tutorial;
every Tutorial tick forces both game speeds to 0 and keeps the state; and the
only other external events, onFlingRelease and the tick, leave Tutorial
unchanged. -/
theorem claim_C10 (p : PlayerS) (t : TimeS) (g : Game) (ts : ℚ)
    (hT : p.playerState = PState.Tutorial)
    (hgT : g.player.playerState = PState.Tutorial) :
    (onAim p t).1.playerState = PState.Aiming ∧
    onFling p t = (p, t) ∧
    (playerUpdate g ts).time = ⟨0, 0⟩ ∧
    (playerUpdate g ts).player.playerState = PState.Tutorial ∧
    (∀ p2 : PlayerS, p2.playerState = PState.Idle →
      (onAim p2 t).1.playerState = PState.Aiming) ∧
    (∀ p2 : PlayerS, p2.playerState = PState.Dead → onAim p2 t = (p2, t)) := by
  refine ⟨?_, ?_, ?_, ?_, ?_, ?_⟩
  · unfold onAim
    rw [hT, if_neg (by decide)]
  · unfold onFling
    rw [hT, if_pos (show PState.Tutorial ≠ PState.Aiming by decide)]
  · unfold playerUpdate
    rw [hgT]
    rfl
  · unfold playerUpdate
    rw [hgT]
    dsimp only
    split_ifs <;> exact hgT
  · intro p2 h2
    unfold onAim
    rw [h2, if_neg (by decide)]
  · intro p2 h2
    unfold onAim
    rw [h2, if_pos rfl]

/-- Witness for claim C10 at a concrete Tutorial player and game. -/
theorem claim_C10_witness :
    (onAim ⟨⟨0, 0⟩, ⟨0, 0⟩, ⟨0, 0⟩, PState.Tutorial, 5, ⟨0, 0⟩, 10, false, ⟨0, 0⟩⟩
      ⟨1, 1⟩).1.playerState = PState.Aiming ∧
    (playerUpdate
      ⟨⟨⟨250, 0⟩, ⟨0, 0⟩, ⟨0, 0⟩, PState.Tutorial, 5, ⟨0, 0⟩, 10, false, ⟨0, 0⟩⟩,
        ⟨1, 1⟩,
        ⟨⟨250, 0⟩, 1, Mat.identityM, ⟨0, -375, 500, 750⟩, ⟨0, -1125, 500, 750⟩,
          ⟨0, 500⟩⟩,
        ⟨300, 300⟩, [], [], ⟨fun _ => 1/2, 0⟩,
        ⟨⟨0, 0⟩, ⟨0, 0⟩, false, ⟨0, 0⟩, ⟨0, 0⟩⟩,
        ⟨0, 0⟩, ⟨0, 0⟩, 0, 0, false⟩ 1).time = ⟨0, 0⟩ := by
  have h := claim_C10
    ⟨⟨0, 0⟩, ⟨0, 0⟩, ⟨0, 0⟩, PState.Tutorial, 5, ⟨0, 0⟩, 10, false, ⟨0, 0⟩⟩ ⟨1, 1⟩
    ⟨⟨⟨250, 0⟩, ⟨0, 0⟩, ⟨0, 0⟩, PState.Tutorial, 5, ⟨0, 0⟩, 10, false, ⟨0, 0⟩⟩,
      ⟨1, 1⟩,
      ⟨⟨250, 0⟩, 1, Mat.identityM, ⟨0, -375, 500, 750⟩, ⟨0, -1125, 500, 750⟩,
        ⟨0, 500⟩⟩,
      ⟨300, 300⟩, [], [], ⟨fun _ => 1/2, 0⟩,
      ⟨⟨0, 0⟩, ⟨0, 0⟩, false, ⟨0, 0⟩, ⟨0, 0⟩⟩,
      ⟨0, 0⟩, ⟨0, 0⟩, 0, 0, false⟩ 1 rfl rfl
  exact ⟨h.1, h.2.2.1⟩

/-- Claim C9: with the player Idle and no wave contact, no obstacle overlap
and no wall bounce, one tick leaves velocity
`(v + (a + GRAVITY * ts) * ts) * (1 - FRICTION * ts)` — gravity enters the
pending acceleration already multiplied by timeSpeed and the integrator
multiplies by timeSpeed again, so the per-tick gravity gain is
`GRAVITY * ts^2`; per unit of simulated time that is `GRAVITY * ts`, strictly
below GRAVITY whenever 0 < ts < 1. -/
theorem claim_C9 (g : Game) (ts : ℚ)
    (hIdle : g.player.playerState = PState.Idle)
    (hwave : ¬ waveContains g.wave g.player.pos)
    (horbs : ∀ o ∈ g.orbs,
      ¬ isColliding g.player.pos g.player.colliderRadius o.pos o.colliderRadius)
    (hspikes : ∀ o ∈ g.spikes,
      ¬ isColliding g.player.pos g.player.colliderRadius o.pos o.colliderRadius)
    (hleft : ¬ (g.player.pos.x < g.cam.boundingRectangle.left))
    (hright : ¬ (g.player.pos.x > g.cam.boundingRectangle.right)) :
    (playerUpdate g ts).player.vel.y =
      (g.player.vel.y + (g.player.acc.y + GRAVITY.y * ts) * ts) *
        (1 - FRICTION * ts) ∧
    (playerUpdate g ts).player.vel.x =
      (g.player.vel.x + (g.player.acc.x + GRAVITY.x * ts) * ts) *
        (1 - FRICTION * ts) ∧
    (0 < ts → GRAVITY.y * ts * ts / ts = GRAVITY.y * ts) ∧
    (0 < ts → ts < 1 → GRAVITY.y * ts < GRAVITY.y) := by
  have hcc := checkCollisions_no_overlap g.player g.orbs g.spikes
    g.cam.nextCameraBound g.rng horbs hspikes
  refine ⟨?_, ?_, ?_, ?_⟩
  · unfold playerUpdate aliveStep
    rw [hIdle]
    dsimp only
    rw [if_neg hwave, hcc]
    dsimp only
    rw [if_neg hleft, if_neg hright]
    unfold physicsUpdate Vec.add Vec.smul Vec.sub
    dsimp only
    ring
  · unfold playerUpdate aliveStep
    rw [hIdle]
    dsimp only
    rw [if_neg hwave, hcc]
    dsimp only
    rw [if_neg hleft, if_neg hright]
    unfold physicsUpdate Vec.add Vec.smul Vec.sub
    dsimp only
    ring
  · intro hts
    field_simp
  · intro h0 h1
    have hg : GRAVITY.y = 100000 := rfl
    rw [hg]
    nlinarith

/-- Witness for claim C9 at a concrete Idle game and timeSpeed 1/2. -/
theorem claim_C9_witness :
    (playerUpdate
      ⟨⟨⟨250, 0⟩, ⟨3, 4⟩, ⟨0, 0⟩, PState.Idle, 5, ⟨0, 0⟩, 10, false, ⟨0, 0⟩⟩,
        ⟨1, 1⟩,
        ⟨⟨250, 0⟩, 1, Mat.identityM, ⟨0, -375, 500, 750⟩, ⟨0, -1125, 500, 750⟩,
          ⟨0, 500⟩⟩,
        ⟨300, 300⟩, [], [], ⟨fun _ => 1/2, 0⟩,
        ⟨⟨0, 0⟩, ⟨0, 0⟩, false, ⟨0, 0⟩, ⟨0, 0⟩⟩,
        ⟨0, 0⟩, ⟨0, 0⟩, 0, 0, false⟩ (1/2)).player.vel.y =
      (4 + (0 + GRAVITY.y * (1/2)) * (1/2)) * (1 - FRICTION * (1/2)) ∧
    GRAVITY.y * (1/2) < GRAVITY.y := by
  have h := claim_C9
    ⟨⟨⟨250, 0⟩, ⟨3, 4⟩, ⟨0, 0⟩, PState.Idle, 5, ⟨0, 0⟩, 10, false, ⟨0, 0⟩⟩,
      ⟨1, 1⟩,
      ⟨⟨250, 0⟩, 1, Mat.identityM, ⟨0, -375, 500, 750⟩, ⟨0, -1125, 500, 750⟩,
        ⟨0, 500⟩⟩,
      ⟨300, 300⟩, [], [], ⟨fun _ => 1/2, 0⟩,
      ⟨⟨0, 0⟩, ⟨0, 0⟩, false, ⟨0, 0⟩, ⟨0, 0⟩⟩,
      ⟨0, 0⟩, ⟨0, 0⟩, 0, 0, false⟩ (1/2) rfl
    (by norm_num [waveContains, Rect.containsPt, WAVE_BOUNDS_WIDTH,
      WAVE_BOUNDS_HEIGHT])
    (by simp) (by simp)
    (by norm_num [Rect.left]) (by norm_num [Rect.right])
  exact ⟨h.1, h.2.2.2 (by norm_num) (by norm_num)⟩

/-- A concrete game-scene state: player Idle at the camera default with 5
flings, empty obstacle lists, the wave 300 units below, pointer at rest. -/
def g4 : Game :=
  ⟨⟨⟨250, 0⟩, ⟨0, 0⟩, ⟨0, 0⟩, PState.Idle, 5, ⟨0, 0⟩, 10, false, ⟨0, 0⟩⟩,
    ⟨1, 1⟩,
    ⟨⟨250, 0⟩, 1, Mat.identityM, ⟨0, -375, 500, 750⟩, ⟨0, -1125, 500, 750⟩,
      ⟨0, 500⟩⟩,
    ⟨300, 300⟩, [], [], ⟨fun _ => 1/2, 0⟩,
    ⟨⟨0, 0⟩, ⟨0, 0⟩, false, ⟨0, 0⟩, ⟨0, 0⟩⟩,
    ⟨0, 0⟩, ⟨0, 0⟩, 0, 0, false⟩

/-- g4 after a press at canvas (100, 100) and a pointer move to (100, 40). -/
def g4aim : Game :=
  ⟨⟨⟨250, 0⟩, ⟨0, 0⟩, ⟨0, 0⟩, PState.Aiming, 5, ⟨0, 0⟩, 10, true, ⟨0, 0⟩⟩,
    ⟨1, 1/50⟩,
    ⟨⟨250, 0⟩, 1, Mat.identityM, ⟨0, -375, 500, 750⟩, ⟨0, -1125, 500, 750⟩,
      ⟨0, 500⟩⟩,
    ⟨300, 300⟩, [], [], ⟨fun _ => 1/2, 0⟩,
    ⟨⟨100, 40⟩, ⟨100, 40⟩, true, ⟨100, 100⟩, ⟨0, 0⟩⟩,
    ⟨0, 0⟩, ⟨0, 0⟩, 0, 0, false⟩

/-- g4aim after one game frame with zero elapsed time: the Aiming tick
latches flingForce = (100,100) - (100,40) = (0,60). -/
def g4post : Game :=
  ⟨⟨⟨250, 0⟩, ⟨0, 0⟩, ⟨0, 0⟩, PState.Aiming, 5, ⟨0, 60⟩, 10, true, ⟨0, 42⟩⟩,
    ⟨451/500, 1/50⟩,
    ⟨⟨250, 0⟩, 41/40, ⟨1, 0, 0, 1, 0, 375⟩, ⟨0, -375, 500, 750⟩,
      ⟨0, -1125, 500, 750⟩, ⟨0, 500⟩⟩,
    ⟨300, 300⟩, [], [], ⟨fun _ => 1/2, 0⟩,
    ⟨⟨100, 40⟩, ⟨100, 40⟩, true, ⟨100, 100⟩, ⟨0, 0⟩⟩,
    ⟨0, 0⟩, ⟨100, -335⟩, 0, 0, false⟩

lemma g4aim_eval :
    gameStep (gameStep g4 (GEvent.pointerdown ⟨100, 100⟩))
      (GEvent.pointermove ⟨100, 40⟩) = g4aim := by
  norm_num +decide [gameStep, g4, g4aim, onAim, Vec.sub]

lemma g4tick_eval : updateGame g4aim 0 = g4post := by
  norm_num +decide [updateGame, g4aim, g4post, playerUpdate, aliveStep, whenAim,
    checkCollisions, processOrbs, processSpikes, waveContains, Rect.containsPt,
    waveUpdate, physicsUpdate, cameraUpdate, computeMatrix,
    computeBoundingRectangle, canvasToWorld, Mat.applyInverse, Mat.identityM,
    Mat.translateM, Mat.scaleM, easeTo, lerp, lerp2D, Vec.add, Vec.sub,
    Vec.smul, Vec.lengthSq, updateOrbList, updateSpikeList, Rect.left,
    Rect.right, Rect.top, Rect.bottom, WAVE_BOUNDS_WIDTH, WAVE_BOUNDS_HEIGHT,
    CAMERA_ZOOM_DEFAULT, CAMERA_ZOOM_AIMING, CAMERA_EASING_FACTOR,
    CAMERA_SPEEDING_EASING_FACTOR, CAMERA_AIMING_EASING_FACTOR,
    TIME_EASING_FACTOR, GRAVITY, FRICTION, WAVE_SPEED, APP_SIZE]

/-- The press-move-tick-move-release scenario. -/
def c4events : List GEvent :=
  [GEvent.pointerdown ⟨100, 100⟩, GEvent.pointermove ⟨100, 40⟩, GEvent.tick 0,
   GEvent.pointermove ⟨0, 0⟩, GEvent.pointerup ⟨0, 0⟩]

/-- The state after the scenario. -/
def c4final : Game := c4events.foldl gameStep g4

/-- Counterexample to claim C4 as stated: after aiming from canvas (100,100)
with the pointer sampled at (100,40) on the last Aiming tick, moving the
pointer to (0,0) and releasing there applies velocity (0,60)*5 = (0,300),
not (press - release)*5 = (500,500): the release-latched
mouseUpCanvasPosition is never read by the fling. -/
theorem claim_C4_counterexample :
    c4final.player.vel = ⟨0, 300⟩ ∧
    c4final.player.vel ≠
      (c4final.input.mouseDownCanvasPosition.sub
        c4final.input.mouseUpCanvasPosition).smul 5 := by
  have hfin : c4final =
      gameStep (gameStep g4post (GEvent.pointermove ⟨0, 0⟩))
        (GEvent.pointerup ⟨0, 0⟩) := by
    unfold c4final c4events
    simp only [List.foldl]
    rw [g4aim_eval]
    rw [show gameStep g4aim (GEvent.tick 0) = g4post from g4tick_eval]
  rw [hfin]
  norm_num +decide [gameStep, g4post, onFling, exitAiming, setFlingAmount, Vec.sub,
    Vec.smul, Vec.lengthSq, FLING_FORCE_MIN]

/-- Claim C4 (amended): the release-latched mouseUpCanvasPosition is never
consulted — the fling outcome is the same for any two release positions; the
fling force used at release is the one sampled by the last Aiming-state tick,
mouseDownCanvasPosition - mouseCanvasPosition; and a valid release applies
exactly that vector times 5 as the velocity. -/
theorem claim_C4 (g : Game) (e : ℚ) (u u2 : Vec)
    (hA : g.player.playerState = PState.Aiming)
    (hA2 : (updateGame g e).player.playerState = PState.Aiming)
    (hval : ¬ ((g.input.mouseDownCanvasPosition.sub
      g.input.mouseCanvasPosition).lengthSq < FLING_FORCE_MIN))
    (hfl : (updateGame g e).player.flings ≠ 0) :
    (∀ g2 : Game, (gameStep g2 (GEvent.pointerup u)).player =
      (gameStep g2 (GEvent.pointerup u2)).player) ∧
    (updateGame g e).player.flingForce =
      g.input.mouseDownCanvasPosition.sub g.input.mouseCanvasPosition ∧
    (gameStep (updateGame g e) (GEvent.pointerup u)).player.vel =
      (g.input.mouseDownCanvasPosition.sub g.input.mouseCanvasPosition).smul 5 := by
  have hff : (updateGame g e).player.flingForce =
      g.input.mouseDownCanvasPosition.sub g.input.mouseCanvasPosition := by
    unfold updateGame playerUpdate aliveStep whenAim
    dsimp only
    rw [hA]
    dsimp only
    by_cases hw : waveContains g.wave g.player.pos
    · rw [if_pos hw]
      dsimp only
      split_ifs <;> rfl
    · rw [if_neg hw]
      dsimp only
      split_ifs <;> rfl
  refine ⟨fun g2 => rfl, hff, ?_⟩
  simp only [gameStep]
  unfold onFling
  rw [if_neg (show ¬ ((updateGame g e).player.playerState ≠ PState.Aiming) from by
    rw [hA2]; simp)]
  rw [hff]
  rw [if_neg (not_or.mpr ⟨hval, hfl⟩)]

/-- Witness for claim C4: the g4aim scenario with a zero-length frame and
release positions (0,0) and (5,5). -/
theorem claim_C4_witness :
    (updateGame g4aim 0).player.flingForce =
      (Vec.mk 100 100).sub ⟨100, 40⟩ ∧
    (gameStep (updateGame g4aim 0) (GEvent.pointerup ⟨0, 0⟩)).player.vel =
      ((Vec.mk 100 100).sub ⟨100, 40⟩).smul 5 := by
  have h := claim_C4 g4aim 0 ⟨0, 0⟩ ⟨5, 5⟩ rfl
    (by rw [g4tick_eval]; rfl)
    (by norm_num [g4aim, Vec.sub, Vec.lengthSq, FLING_FORCE_MIN])
    (by rw [g4tick_eval]; norm_num [g4post])
  exact ⟨h.2.1, h.2.2⟩

end ChronoFling
